import Mathlib

-- Verification of the HTTP connection-manager core: the data-mapping pipeline
-- (DataMapper / getValueByPath), the HTTP client option building and health
-- check, the in-memory storage layer, and the execute endpoints.
-- JavaScript values are embedded as a JSON-like inductive; JS `undefined` is
-- the `undefined` constructor.  Prototype-chain properties of JS objects are not
-- modelled: the embedding covers own data properties (for arrays these include
-- the numeric index keys and `length`, which are own properties in JS).

namespace ConnHub

-- A JSON-like JavaScript value.  Numbers are modelled as integers (every
-- numeric value appearing in the repository's mapping examples is an
-- integer); objects are ordered key/value lists, as JS objects preserve
-- insertion order.
inductive JSON where
  | undefined : JSON
  | null : JSON
  | bool : Bool → JSON
  | num : Int → JSON
  | str : String → JSON
  | arr : List JSON → JSON
  | obj : List (String × JSON) → JSON

-- JS truthiness of a value (`!mapping`, `data && ...`, `cur && ...`).
def truthy : JSON → Bool
  | .undefined => false
  | .null => false
  | .bool b => b
  | .num n => n != 0
  | .str s => s != ""
  | .arr _ => true
  | .obj _ => true

-- `cur && typeof cur === 'object'`: a non-null object value, i.e. a plain
-- object or an array (typeof null is 'object' but null is falsy).
def isObjectLike : JSON → Bool
  | .arr _ => true
  | .obj _ => true
  | _ => false

-- Property assignment `result[k] = v` on a JS object: if the key is already
-- present its value is replaced in place (key order kept), otherwise the
-- key is appended at the end.
def assocSet {α : Type} (l : List (String × α)) (k : String) (v : α) : List (String × α) :=
  match l.any (fun p => p.1 == k) with
  | true => l.map (fun p => match p.1 == k with | true => (k, v) | false => p)
  | false => l ++ [(k, v)]

-- The index position named by a string key on a length-len array: JS array
-- index keys are exactly the canonical decimal strings of the positions
-- below the length.
def arrIndex? (len : Nat) (k : String) : Option Nat :=
  (List.range len).find? (fun i => toString i == k)

-- JS `k in cur` for own data properties.  For arrays the own keys are the
-- index keys plus "length".
def hasKey : JSON → String → Bool
  | .obj kvs, k => kvs.any (fun p => p.1 == k)
  | .arr l, k => k == "length" || (arrIndex? l.length k).isSome
  | _, _ => false

-- JS member access `cur[k]` on an object or array (absent key gives
-- undefined).
def getKey : JSON → String → JSON
  | .obj kvs, k => (kvs.lookup k).getD .undefined
  | .arr l, k =>
      if k == "length" then .num l.length
      else
        (match arrIndex? l.length k with
          | some i => (l.get? i).getD .undefined
          | none => .undefined)
  | _, _ => .undefined

-- Splitting a character list on the dot separator, accumulating the
-- current segment in reverse; the JS `path.split('.')` semantics
-- ("" gives [""], consecutive dots give empty segments).
def splitDotsAux : List Char → List Char → List String
  | [], acc => [String.mk acc.reverse]
  | c :: rest, acc =>
      if c = '.' then String.mk acc.reverse :: splitDotsAux rest []
      else splitDotsAux rest (c :: acc)

-- `s.split('.')`.
def splitDots (s : String) : List String :=
  splitDotsAux s.toList []

-- `path.startsWith('$.')`.
def isPathExpr (s : String) : Bool :=
  match s.toList with
  | '$' :: '.' :: _ => true
  | _ => false

-- The key walk of backend/lib/dataMapper.js getValueByPath:
-- `for (const k of keys) { if (cur && typeof cur === 'object' && k in cur) cur = cur[k]; else return undefined }`.
def walkKeys : JSON → List String → JSON
  | cur, [] => cur
  | cur, k :: ks =>
      if isObjectLike cur && hasKey cur k then walkKeys (getKey cur k) ks else .undefined

-- backend/lib/dataMapper.js DataMapper.getValueByPath.  The `!path` guard
-- makes the empty string (a falsy JS value) return undefined before the
-- literal check; non-string paths (also undefined by the typeof guard) are
-- handled at the call sites of the model.
def getValueByPath (o : JSON) (path : String) : JSON :=
  if path = "" then .undefined
  else if isPathExpr path = false then .str path
  else walkKeys o ((splitDots (path.drop 2)).filter (fun s => s ≠ ""))

-- The key walk of merged_http2/dataMapper.js getValueByPath: no `k in cur`
-- membership test, so a missing key yields undefined and the loop continues
-- with undefined (which fails the object test at the next step).
def walkKeysM : JSON → List String → JSON
  | cur, [] => cur
  | cur, k :: ks =>
      if isObjectLike cur then walkKeysM (getKey cur k) ks else .undefined

-- merged_http2/dataMapper.js DataMapper.getValueByPath.  There is no empty
-- or type guard; `path.replace('$.','')` removes the first occurrence of
-- "$.", which under the startsWith guard is the leading prefix.
def getValueByPathM (o : JSON) (path : String) : JSON :=
  if isPathExpr path = false then .str path
  else walkKeysM o ((splitDots (path.drop 2)).filter (fun s => s.length > 0))

-- A mapping rule of the backend rule-list form:
-- `{ sourcePath|source, destField|dest, transform? }`.  The string-typed
-- fields are Option-valued with none for an absent (or null) slot, matching
-- the `??` coalescing at the use site; every rule in the repository carries
-- string paths and string destination fields.
structure Rule where
  sourcePath : Option String := none
  source : Option String := none
  destField : Option String := none
  dest : Option String := none
  transform : Option (JSON → JSON) := none

-- `rule.sourcePath ?? rule.source` resolved against the source value; an
-- absent path is a non-string, which getValueByPath's typeof guard turns
-- into undefined.
def ruleResolved (src : JSON) (r : Rule) : JSON :=
  match r.sourcePath.orElse (fun _ => r.source) with
  | none => .undefined
  | some p => getValueByPath src p

-- `rule.transform ? rule.transform(value) : value`.
def ruleValue (src : JSON) (r : Rule) : JSON :=
  match r.transform with
  | some f => f (ruleResolved src r)
  | none => ruleResolved src r

-- `rule.destField ?? rule.dest`; when both are absent JS coerces the
-- undefined key of `result[destField]` to the string "undefined".
def ruleKey (r : Rule) : String :=
  (r.destField.orElse (fun _ => r.dest)).getD "undefined"

-- backend/lib/dataMapper.js DataMapper.transformAdvanced: build the result
-- object field by field in rule order.
def transformAdvanced (src : JSON) (rules : List Rule) : JSON :=
  .obj (rules.foldl (fun acc r => assocSet acc (ruleKey r) (ruleValue src r)) [])

-- The shape of the `mapping` argument of backend DataMapper.transform:
-- a falsy value (null/undefined), a keyed object `{destField: path}`, or an
-- array of rules.  Keyed-map values are strings at every call site.
inductive Mapping where
  | absent : Mapping
  | keyed : List (String × String) → Mapping
  | rules : List Rule → Mapping

-- backend/lib/dataMapper.js DataMapper.transform.
def transform (sourceData : JSON) (mapping : Mapping) : JSON :=
  match mapping with
  | .absent => sourceData
  | .keyed kvs =>
      if kvs.length = 0 then sourceData
      else .obj (kvs.foldl (fun acc p => assocSet acc p.1 (getValueByPath sourceData p.2)) [])
  | .rules rs => transformAdvanced sourceData rs

-- merged_http2/dataMapper.js DataMapper.transform (keyed form; none models
-- an absent/null mapping, and `Object.keys(mapping).length === 0` is the
-- emptiness test).
def transformM (sourceData : JSON) (mapping : Option (List (String × String))) : JSON :=
  match mapping with
  | none => sourceData
  | some kvs =>
      if kvs.length = 0 then sourceData
      else .obj (kvs.foldl (fun acc p => assocSet acc p.1 (getValueByPathM sourceData p.2)) [])

-- Field lookup on an object value.
def objLookup : JSON → String → Option JSON
  | .obj kvs, k => kvs.lookup k
  | _, _ => none

-- Specification-side characterisation for the last-write-wins claim: the
-- value contributed by the last rule in the list whose destination field
-- is f, if any.
def lastRuleVal (src : JSON) (f : String) : List Rule → Option JSON
  | [] => none
  | r :: rs =>
      match lastRuleVal src f rs with
      | some v => some v
      | none => if ruleKey r == f then some (ruleValue src r) else none

-- JS object value as a plain entry list (a connection record, a patch, a
-- log entry).
abbrev Obj := List (String × JSON)

-- The object spread `{ ...base, ...patch }`: the own keys of patch are
-- assigned over base in patch order.
def spreadInto {α : Type} (base patch : List (String × α)) : List (String × α) :=
  patch.foldl (fun acc p => assocSet acc p.1 p.2) base

-- backend/lib/storage.js updateConnection.  The store is the id-keyed
-- connection Map; the JS `false` return for a missing id is modelled as
-- none, the updated object as some.
def updateConnection (store : List (String × Obj)) (id : String) (patch : Obj) :
    Option Obj × List (String × Obj) :=
  match store.lookup id with
  | none => (none, store)
  | some existing =>
      let updated := spreadInto existing patch
      (some updated, assocSet store id updated)

-- backend/lib/storage.js logEvent.  `withMeta = { timestamp: ..., ...entry }`,
-- unshift to the front, then keep the first 500 when the length exceeds 500.
def logEvent (logs : List Obj) (ts : String) (entry : Obj) : List Obj :=
  let withMeta := spreadInto [("timestamp", JSON.str ts)] entry
  let l := withMeta :: logs
  if 500 < l.length then l.take 500 else l

-- A settled HTTP response as returned by HttpClient.request (status and
-- parsed body; the client throws on non-2xx, so a reachable-but-failing
-- destination surfaces as the error side of the oracle below).
structure HttpResp where
  status : Int
  body : JSON

-- One per-record outcome pushed by the batch execute handler.
structure ExecResult where
  input : JSON
  mapped : JSON
  responseStatus : Int
  responseBody : JSON

-- The record loop of backend/api/connections-[id]-execute.js: map the
-- record (the record itself is the source data), post it to the
-- destination, push the result.  `post` is the oracle for
-- `http.request({url: conn.destinationUrl, ...})`; a thrown error (network
-- failure, timeout, or non-2xx status) is its error side and propagates out
-- of the loop, discarding all results collected so far.
def execBatch (mappings : Mapping) (post : JSON → Except String HttpResp) :
    List JSON → Except String (List ExecResult)
  | [] => .ok []
  | r :: rest =>
      let mapped := transform r mappings
      match post mapped with
      | .error e => .error e
      | .ok out =>
          match execBatch mappings post rest with
          | .error e => .error e
          | .ok rs => .ok (⟨r, mapped, out.status, out.body⟩ :: rs)

-- The handler's HTTP answer: 200 with the result list, or 500 with the
-- message of the exception caught by the surrounding try/catch.
inductive ApiResp where
  | ok : List ExecResult → ApiResp
  | err : String → ApiResp

-- backend/api/connections-[id]-execute.js after validation: run the loop
-- and answer 200, or catch the escaped exception and answer 500.
def executeHandler (mappings : Mapping) (post : JSON → Except String HttpResp)
    (records : List JSON) : ApiResp :=
  match execBatch mappings post records with
  | .ok rs => .ok rs
  | .error e => .err e

-- Connection stats as read and written by the Sheets-backed execute route
-- (src/unnamed/part_002); lastExecutedAt is carried to show it is never
-- touched there.
structure Stats2 where
  executionCount : Int
  successCount : Int
  errorCount : Int
  lastExecutedAt : Option String

-- The HTTP answer of the Sheets-backed route.
inductive SheetsResp where
  | ok200 : Int → Int → SheetsResp
  | err : Int → String → SheetsResp

-- The source response object handed to the mapper by part_002
-- (`mapper.transform(sourceResponse, connection.mapping)` receives the whole
-- {status, headers, body} record; headers are not modelled).
def respToJson (r : HttpResp) : JSON :=
  .obj [("status", .num r.status), ("body", r.body)]

-- src/unnamed/part_002 execute handler, stats-relevant path: source fetch,
-- map, destination post; stats are touched only in the success branch
-- (executionCount and successCount incremented; errorCount and
-- lastExecutedAt never).  The mapping step's try/catch is not modelled as
-- the embedded transform is total.
def executeSheets (stats : Stats2) (mapping : Mapping)
    (src : Except String HttpResp) (dst : JSON → Except String HttpResp) :
    Stats2 × SheetsResp :=
  match src with
  | .error e => (stats, .err 500 ("Source endpoint failed: " ++ e))
  | .ok srcResp =>
      let mapped := transform (respToJson srcResp) mapping
      match dst mapped with
      | .error e => (stats, .err 500 ("Destination endpoint failed: " ++ e))
      | .ok destResp =>
          ({ stats with
              executionCount := stats.executionCount + 1,
              successCount := stats.successCount + 1 },
            .ok200 srcResp.status destResp.status)

-- Connection stats columns of the SQL-backed server (src/unnamed/part_004).
structure Stats4 where
  execution_count : Int
  success_count : Int
  error_count : Int
  last_executed : Option String

-- The UPDATE statement of the SQL execute route:
-- execution_count + 1, success_count + (success ? 1 : 0),
-- error_count + (success ? 0 : 1), last_executed = CURRENT_TIMESTAMP.
def updateStats4 (st : Stats4) (success : Bool) (now : String) : Stats4 :=
  { execution_count := st.execution_count + 1,
    success_count := st.success_count + (if success then 1 else 0),
    error_count := st.error_count + (if success then 0 else 1),
    last_executed := some now }

-- Optional chaining `current?.[key]` of part_004's getNestedValue: null and
-- undefined short-circuit to undefined; objects and arrays use member
-- access; strings expose length and character indexing; other primitives
-- have no own properties in the model.
def optChain : JSON → String → JSON
  | .undefined, _ => .undefined
  | .null, _ => .undefined
  | .obj kvs, k => getKey (.obj kvs) k
  | .arr l, k => getKey (.arr l) k
  | .str s, k =>
      if k = "length" then .num s.length
      else
        (match arrIndex? s.length k with
          | some i =>
              (match s.toList.get? i with
                | some c => .str (String.mk [c])
                | none => .undefined)
          | none => .undefined)
  | _, _ => .undefined

-- src/unnamed/part_004 getNestedValue:
-- `path.split('.').reduce((current, key) => current?.[key], obj)`.
def getNestedValue (o : JSON) (path : String) : JSON :=
  (splitDots path).foldl optChain o

-- A mapping-rules row of the SQL schema: {source_path, dest_field}.
structure Rule004 where
  source_path : Option String := none
  dest_field : Option String := none

-- The rule loop of the SQL execute route: a rule contributes only when both
-- source_path and dest_field are truthy strings and the resolved value is
-- not undefined.
def applyRules004 (sourceData : JSON) (rules : List Rule004) : JSON :=
  if rules.length = 0 then sourceData
  else
    .obj (rules.foldl (fun acc r =>
      match r.source_path, r.dest_field with
      | some sp, some df =>
          if sp ≠ "" ∧ df ≠ "" then
            match getNestedValue sourceData sp with
            | .undefined => acc
            | v => assocSet acc df v
          else acc
      | _, _ => acc) [])

-- A resolved bare-fetch response (part_004 and the health check use fetch
-- directly): ok flag, status, parsed body.
structure FetchRes where
  ok : Bool
  status : Int
  body : JSON

-- The HTTP answer of the SQL execute route.
inductive SqlResp where
  | srcFailed : Int → SqlResp
  | executed : Bool → SqlResp
  | caught : String → SqlResp

-- src/unnamed/part_004 POST /api/connections/:id/execute after the
-- connection is loaded: fetch the source (a rejection is caught by the
-- outer catch with no stat update; a non-ok source logs and answers 500
-- with no stat update), map, post to the destination, and update the stats
-- with success = destResponse.ok.
def executeSql (st : Stats4) (rules : List Rule004) (now : String)
    (srcFetch : Except String FetchRes) (dstFetch : JSON → Except String FetchRes) :
    Stats4 × SqlResp :=
  match srcFetch with
  | .error e => (st, .caught e)
  | .ok srcRes =>
      if ¬ srcRes.ok then (st, .srcFailed srcRes.status)
      else
        let destData := applyRules004 srcRes.body rules
        match dstFetch destData with
        | .error e => (st, .caught e)
        | .ok destRes => (updateStats4 st destRes.ok now, .executed destRes.ok)

-- N sequential executions of the SQL route against fixed oracles.
def executeSqlN (rules : List Rule004) (now : String)
    (srcFetch : Except String FetchRes) (dstFetch : JSON → Except String FetchRes) :
    Stats4 → Nat → Stats4
  | st, 0 => st
  | st, n + 1 => executeSqlN rules now srcFetch dstFetch
      (executeSql st rules now srcFetch dstFetch).1 n

-- The result object of HttpClient.healthCheck: the success branch carries
-- {healthy, status, latency, timestamp}, the catch branch
-- {healthy: false, error, latency, timestamp}.
structure HealthResult where
  healthy : Bool
  status : Option Int
  error : Option String
  latency : Int
  timestamp : String

-- backend/lib/dataMapper.js (httpClient section) HttpClient.healthCheck.
-- The two fetch oracles are the HEAD probe and the GET retry of
-- `fetch(url, {method:'HEAD', ...}).catch(() => fetch(url, {...}))`; start
-- and end times instantiate the two Date.now() reads.  The function is
-- total: every outcome of the oracles produces a result object (the JS
-- try/catch never lets an exception escape).
def healthCheck (headFetch getFetch : Except String FetchRes)
    (startT endT : Int) (ts : String) : HealthResult :=
  let probe := match headFetch with
    | .ok r => Except.ok r
    | .error _ => getFetch
  match probe with
  | .ok r =>
      { healthy := r.ok, status := some r.status, error := none,
        latency := endT - startT, timestamp := ts }
  | .error e =>
      { healthy := false, status := none, error := some e,
        latency := endT - startT, timestamp := ts }

-- The write-oriented methods of HttpClient.request's body guard.
def writeMethods : List String := ["POST", "PUT", "PATCH", "DELETE"]

-- The fetch options built by HttpClient.request: body := some data models
-- `opts.body = JSON.stringify(data)` being attached.
structure ReqOpts where
  method : String
  headers : List (String × String)
  body : Option JSON

-- backend/lib/dataMapper.js (httpClient section) HttpClient.request, option
-- building: default JSON content type with caller headers spread over it,
-- and `if (data && ['POST','PUT','PATCH','DELETE'].includes(method))
-- opts.body = JSON.stringify(data)`.
def buildReqOpts (method : String) (headers : List (String × String)) (data : JSON) :
    ReqOpts :=
  { method := method,
    headers := spreadInto [("Content-Type", "application/json")] headers,
    body :=
      if truthy data = true ∧ method ∈ writeMethods then some data else none }

-- Lookup facts about JS property assignment and spread.

theorem lookup_of_any_false {α : Type} (k : String) :
    ∀ l : List (String × α), l.any (fun p => p.1 == k) = false → l.lookup k = none
  | [], _ => rfl
  | p :: rest, h => by
      have h1 : (p.1 == k) = false ∧ rest.any (fun p => p.1 == k) = false := by
        simpa using h
      have hk : (k == p.1) = false := by
        have := h1.1
        simp only [beq_eq_false_iff_ne] at this ⊢
        exact fun e => this e.symm
      simp [List.lookup, hk, lookup_of_any_false k rest h1.2]

theorem lookup_append_of_none {α : Type} (k : String) :
    ∀ l l2 : List (String × α), l.lookup k = none → (l ++ l2).lookup k = l2.lookup k
  | [], _, _ => rfl
  | p :: rest, l2, h => by
      rcases hk : (k == p.1) with _ | _
      · simp only [List.lookup, hk] at h
        simp [List.lookup, hk, lookup_append_of_none k rest l2 h]
      · simp [List.lookup, hk] at h

theorem lookup_append_single_ne {α : Type} (k k' : String) (v : α) (hne : k' ≠ k) :
    ∀ l : List (String × α), (l ++ [(k, v)]).lookup k' = l.lookup k'
  | [] => by
      have hk : (k' == k) = false := by simpa using hne
      simp [List.lookup, hk]
  | p :: rest => by
      rcases hk : (k' == p.1) with _ | _
      · simp [List.lookup, hk, lookup_append_single_ne k k' v hne rest]
      · simp [List.lookup, hk]

theorem lookup_map_set {α : Type} (k : String) (v : α) :
    ∀ l : List (String × α), l.any (fun p => p.1 == k) = true →
      (l.map (fun p => match p.1 == k with | true => (k, v) | false => p)).lookup k = some v
  | p :: rest, h => by
      rcases hp : (p.1 == k) with _ | _
      · have hrest : rest.any (fun p => p.1 == k) = true := by
          simpa [List.any_cons, hp] using h
        have hk : (k == p.1) = false := by
          simp only [beq_eq_false_iff_ne] at hp ⊢
          exact fun e => hp e.symm
        simp [List.lookup, hp, hk, lookup_map_set k v rest hrest]
      · simp [List.lookup, hp]

theorem lookup_map_set_ne {α : Type} (k k' : String) (v : α) (hne : k' ≠ k) :
    ∀ l : List (String × α),
      (l.map (fun p => match p.1 == k with | true => (k, v) | false => p)).lookup k' = l.lookup k'
  | [] => rfl
  | p :: rest => by
      rcases hp : (p.1 == k) with _ | _
      · simp [List.lookup, hp, lookup_map_set_ne k k' v hne rest]
      · have hpk : p.1 = k := by simpa using hp
        have hk' : (k' == p.1) = false := by
          simp only [beq_eq_false_iff_ne]
          exact fun e => hne (e.trans hpk)
        have hk'' : (k' == k) = false := by
          simp only [beq_eq_false_iff_ne]
          exact hne
        simp [List.lookup, hp, hk', hk'', lookup_map_set_ne k k' v hne rest]

theorem lookup_assocSet_self {α : Type} (l : List (String × α)) (k : String) (v : α) :
    (assocSet l k v).lookup k = some v := by
  unfold assocSet
  rcases h : l.any (fun p => p.1 == k) with _ | _
  · rw [lookup_append_of_none k l _ (lookup_of_any_false k l h)]
    simp [List.lookup]
  · exact lookup_map_set k v l h

theorem lookup_assocSet_ne {α : Type} (l : List (String × α)) (k k' : String) (v : α)
    (hne : k' ≠ k) : (assocSet l k v).lookup k' = l.lookup k' := by
  unfold assocSet
  rcases h : l.any (fun p => p.1 == k) with _ | _
  · exact lookup_append_single_ne k k' v hne l
  · exact lookup_map_set_ne k k' v hne l

theorem lookup_spread_of_none {α : Type} (k : String) :
    ∀ (patch base : List (String × α)), patch.lookup k = none →
      (spreadInto base patch).lookup k = base.lookup k
  | [], _, _ => rfl
  | p :: rest, base, h => by
      rcases hk : (k == p.1) with _ | _
      · simp only [List.lookup, hk] at h
        have hne : k ≠ p.1 := by simpa using hk
        calc (spreadInto base (p :: rest)).lookup k
            = (spreadInto (assocSet base p.1 p.2) rest).lookup k := rfl
          _ = (assocSet base p.1 p.2).lookup k := lookup_spread_of_none k rest _ h
          _ = base.lookup k := lookup_assocSet_ne base p.1 k p.2 hne
      · simp [List.lookup, hk] at h

theorem lookup_of_not_mem_fst {α : Type} (k : String) :
    ∀ l : List (String × α), k ∉ l.map Prod.fst → l.lookup k = none
  | [], _ => rfl
  | p :: rest, h => by
      have h1 : k ≠ p.1 := fun e => h (by simp [e])
      have h2 : k ∉ rest.map Prod.fst := fun m => h (by simp [m])
      have hk : (k == p.1) = false := by simpa using h1
      simp [List.lookup, hk, lookup_of_not_mem_fst k rest h2]

theorem lookup_spread_of_some {α : Type} (k : String) (v : α) :
    ∀ (patch base : List (String × α)), (patch.map Prod.fst).Nodup →
      patch.lookup k = some v → (spreadInto base patch).lookup k = some v
  | p :: rest, base, hnd, h => by
      have hnd' : (rest.map Prod.fst).Nodup := (List.nodup_cons.mp (by simpa using hnd)).2
      rcases hk : (k == p.1) with _ | _
      · simp only [List.lookup, hk] at h
        exact lookup_spread_of_some k v rest (assocSet base p.1 p.2) hnd' h
      · have hkeq : k = p.1 := by simpa using hk
        simp only [List.lookup, hk] at h
        have hnotin : p.1 ∉ rest.map Prod.fst := (List.nodup_cons.mp (by simpa using hnd)).1
        have hrest : rest.lookup k = none := by
          rw [hkeq]; exact lookup_of_not_mem_fst p.1 rest hnotin
        calc (spreadInto base (p :: rest)).lookup k
            = (spreadInto (assocSet base p.1 p.2) rest).lookup k := rfl
          _ = (assocSet base p.1 p.2).lookup k := lookup_spread_of_none k rest _ hrest
          _ = some v := by rw [hkeq, lookup_assocSet_self, h]

-- The rule fold of transformAdvanced realises last-write-wins on the
-- destination field.

theorem lookup_rulesFold (src : JSON) (f : String) :
    ∀ (rules : List Rule) (acc : List (String × JSON)),
      (rules.foldl (fun acc r => assocSet acc (ruleKey r) (ruleValue src r)) acc).lookup f =
        match lastRuleVal src f rules with
        | some v => some v
        | none => acc.lookup f
  | [], acc => rfl
  | r :: rs, acc => by
      have ih := lookup_rulesFold src f rs (assocSet acc (ruleKey r) (ruleValue src r))
      simp only [List.foldl, lastRuleVal]
      rcases hlast : lastRuleVal src f rs with _ | v
      · rcases hk : (ruleKey r == f) with _ | _
        · have hne : f ≠ ruleKey r := by
            have : ruleKey r ≠ f := by simpa using hk
            exact fun e => this e.symm
          simp only [hlast] at ih
          rw [ih, lookup_assocSet_ne acc (ruleKey r) f (ruleValue src r) hne]
          simp [hk]
        · have hkeq : ruleKey r = f := by simpa using hk
          simp only [hlast] at ih
          rw [ih, ← hkeq, lookup_assocSet_self]
          simp [hk]
      · simp only [hlast] at ih
        rw [ih]

/-- C3 counterexample: the claim includes the empty string among the
literals returned unchanged, but the backend resolver's falsy-path guard
(`if (!path ...) return undefined`) maps the empty string to undefined,
not to the empty string. -/
theorem C3_counterexample :
    getValueByPath (.obj [("a", .num 1)]) "" ≠ JSON.str "" ∧
    getValueByPath (.obj [("a", .num 1)]) "" = JSON.undefined :=
  ⟨fun h => JSON.noConfusion h, rfl⟩

/-- C3 (amended): for every JSON value and every string without the path
prefix, the backend resolver returns the string itself provided it is
non-empty, and the merged_http2 resolver returns it unchanged including
the empty string; the backend resolver maps the empty string to
undefined. -/
theorem C3_amended (v : JSON) (s : String) (hp : isPathExpr s = false) :
    (s ≠ "" → getValueByPath v s = JSON.str s) ∧
    getValueByPathM v s = JSON.str s ∧
    getValueByPath v "" = JSON.undefined := by
  refine ⟨fun hs => ?_, ?_, rfl⟩
  · simp [getValueByPath, hs, hp]
  · simp [getValueByPathM, hp]

/-- C3 witness: instantiating the amended theorem at the literal "name". -/
theorem C3_witness :
    getValueByPath (.obj []) "name" = JSON.str "name" ∧
    getValueByPathM (.obj []) "name" = JSON.str "name" :=
  ⟨(C3_amended (.obj []) "name" rfl).1 (by decide),
    (C3_amended (.obj []) "name" rfl).2.1⟩

/-- C4 counterexample: the claim includes the empty rule list among the
identity mappings, but the backend transform dispatches every array —
including the empty one — to transformAdvanced, which returns a fresh
empty object rather than the source. -/
theorem C4_counterexample :
    transform (.obj [("a", .num 1)]) (.rules []) = JSON.obj [] ∧
    JSON.obj [] ≠ JSON.obj [("a", JSON.num 1)] :=
  ⟨rfl, fun h => by
    have := JSON.obj.inj h
    exact absurd this (by simp)⟩

/-- C4 (amended): for every non-null source value, an absent mapping and an
empty keyed map are identity pass-throughs in both implementations (in
merged_http2 also the `Object.keys`-empty mapping value), while the
backend's transform on an empty rule list returns the empty object. -/
theorem C4_amended (x : JSON) (_hx : x ≠ JSON.null) :
    transform x .absent = x ∧
    transform x (.keyed []) = x ∧
    transformM x none = x ∧
    transformM x (some []) = x ∧
    transform x (.rules []) = JSON.obj [] :=
  ⟨rfl, rfl, rfl, rfl, rfl⟩

/-- C4 witness: instantiating the amended theorem at a one-field object. -/
theorem C4_witness :
    transform (.obj [("a", .num 1)]) .absent = JSON.obj [("a", JSON.num 1)] ∧
    transform (.obj [("a", .num 1)]) (.keyed []) = JSON.obj [("a", JSON.num 1)] :=
  ⟨(C4_amended (.obj [("a", .num 1)]) (fun h => JSON.noConfusion h)).1,
    (C4_amended (.obj [("a", .num 1)]) (fun h => JSON.noConfusion h)).2.1⟩

/-- C5: transformAdvanced builds the output field by field in rule order,
applying rule.transform to the resolved value when present and using the
resolved value otherwise; on the destination field the last rule wins, and
in particular the two rules $.a→x, $.b→x applied to {a:1, b:2} produce
{x:2}. -/
theorem C5_rule_list_last_wins (src : JSON) (rules : List Rule) (f : String) :
    objLookup (transformAdvanced src rules) f = lastRuleVal src f rules ∧
    (∀ (r : Rule) (tf : JSON → JSON), r.transform = some tf →
      ruleValue src r = tf (ruleResolved src r)) ∧
    (∀ r : Rule, r.transform = none → ruleValue src r = ruleResolved src r) ∧
    transform (.obj [("a", .num 1), ("b", .num 2)])
      (.rules [{ sourcePath := some "$.a", destField := some "x" },
               { sourcePath := some "$.b", destField := some "x" }]) =
      JSON.obj [("x", JSON.num 2)] := by
  refine ⟨?_, ?_, ?_, rfl⟩
  · have h := lookup_rulesFold src f rules []
    simp only [transformAdvanced, objLookup]
    rw [h]
    rcases lastRuleVal src f rules with _ | v <;> rfl
  · intro r tf h
    simp [ruleValue, h]
  · intro r h
    simp [ruleValue, h]

/-- C5 witness: instantiating the theorem at a concrete rule list with a
transform function, discharging its hypotheses. -/
theorem C5_witness :
    objLookup (transformAdvanced (.obj [("a", .num 5)])
        [{ sourcePath := some "$.a", destField := some "y" }]) "y" =
      lastRuleVal (.obj [("a", .num 5)]) "y"
        [{ sourcePath := some "$.a", destField := some "y" }] ∧
    ruleValue (.obj [("a", .num 5)])
        { destField := some "y", transform := some (fun _ => JSON.num 9) } =
      (fun _ => JSON.num 9)
        (ruleResolved (.obj [("a", .num 5)])
          { destField := some "y", transform := some (fun _ => JSON.num 9) }) :=
  ⟨(C5_rule_list_last_wins (.obj [("a", .num 5)])
      [{ sourcePath := some "$.a", destField := some "y" }] "y").1,
    (C5_rule_list_last_wins (.obj [("a", .num 5)]) [] "y").2.1 _ _ rfl⟩

/-- C6: healthCheck is total over every oracle outcome (the JS try/catch
never lets an exception escape): the result always carries a latency equal
to the elapsed time between the two clock reads regardless of outcome and
the timestamp; when the HEAD probe resolves its response decides the
outcome, when it is rejected the GET retry decides it, and when both are
rejected (unreachable host) the result is healthy:false with the non-empty
rejection message as error. -/
theorem C6_healthCheck (headFetch getFetch : Except String FetchRes)
    (startT endT : Int) (ts : String) :
    (healthCheck headFetch getFetch startT endT ts).latency = endT - startT ∧
    (healthCheck headFetch getFetch startT endT ts).timestamp = ts ∧
    (∀ r : FetchRes, headFetch = .ok r →
      healthCheck headFetch getFetch startT endT ts =
        { healthy := r.ok, status := some r.status, error := none,
          latency := endT - startT, timestamp := ts }) ∧
    (∀ (eh : String) (r : FetchRes), headFetch = .error eh → getFetch = .ok r →
      healthCheck headFetch getFetch startT endT ts =
        { healthy := r.ok, status := some r.status, error := none,
          latency := endT - startT, timestamp := ts }) ∧
    (∀ eh eg : String, headFetch = .error eh → getFetch = .error eg → eg ≠ "" →
      (healthCheck headFetch getFetch startT endT ts).healthy = false ∧
      (healthCheck headFetch getFetch startT endT ts).error = some eg ∧
      (healthCheck headFetch getFetch startT endT ts).error ≠ some "") := by
  refine ⟨?_, ?_, ?_, ?_, ?_⟩
  · cases headFetch <;> cases getFetch <;> simp [healthCheck]
  · cases headFetch <;> cases getFetch <;> simp [healthCheck]
  · intro r h
    subst h
    simp [healthCheck]
  · intro eh r h1 h2
    subst h1; subst h2
    simp [healthCheck]
  · intro eh eg h1 h2 hne
    subst h1; subst h2
    refine ⟨rfl, rfl, fun hc => hne ?_⟩
    have : some eg = some "" := hc
    exact Option.some.inj this

/-- C6 witness: both probes rejected with the runtime's "fetch failed"
message. -/
theorem C6_witness :
    (healthCheck (.error "fetch failed") (.error "fetch failed") 10 25 "ts").healthy = false ∧
    (healthCheck (.error "fetch failed") (.error "fetch failed") 10 25 "ts").error =
      some "fetch failed" ∧
    (healthCheck (.error "fetch failed") (.error "fetch failed") 10 25 "ts").error ≠ some "" :=
  (C6_healthCheck (.error "fetch failed") (.error "fetch failed") 10 25 "ts").2.2.2.2
    "fetch failed" "fetch failed" rfl rfl (by decide)

/-- C7: the serialized data is attached as the request body only when the
method is POST, PUT, PATCH or DELETE and the data is supplied (truthy);
GET and HEAD requests never carry a body. -/
theorem C7_body_only_for_write_methods (method : String)
    (headers : List (String × String)) (data : JSON) :
    ((buildReqOpts method headers data).body.isSome = true →
      method ∈ writeMethods ∧ truthy data = true) ∧
    (method = "GET" ∨ method = "HEAD" →
      (buildReqOpts method headers data).body = none) := by
  constructor
  · intro h
    by_cases hc : truthy data = true ∧ method ∈ writeMethods
    · exact ⟨hc.2, hc.1⟩
    · simp [buildReqOpts, hc] at h
  · intro h
    have hnot : method ∉ writeMethods := by
      rcases h with h | h <;> subst h <;> simp [writeMethods]
    have hc : ¬ (truthy data = true ∧ method ∈ writeMethods) :=
      fun c => hnot c.2
    simp [buildReqOpts, hc]

/-- C7 witness: a GET request with truthy data still carries no body. -/
theorem C7_witness :
    (buildReqOpts "GET" [] (.obj [("x", .num 1)])).body = none :=
  (C7_body_only_for_write_methods "GET" [] (.obj [("x", .num 1)])).2 (Or.inl rfl)

/-- C8 counterexample: path resolution does select array elements by
numeric key segments — a JS array is an object whose index strings are own
keys, so `$.a.0` against {a:[10,20]} yields 10 in both implementations
instead of undefined. -/
theorem C8_counterexample :
    getValueByPath (.obj [("a", .arr [.num 10, .num 20])]) "$.a.0" = JSON.num 10 ∧
    getValueByPath (.obj [("a", .arr [.num 10, .num 20])]) "$.a.0" ≠ JSON.undefined ∧
    getValueByPathM (.obj [("a", .arr [.num 10, .num 20])]) "$.a.0" = JSON.num 10 :=
  ⟨rfl, fun h => JSON.noConfusion h, rfl⟩

/-- C8 (amended): when the walk reaches an array, a key segment that is an
own key of the array (the canonical decimal string of a position below the
length, or "length") descends into the array and resolution continues;
only a segment that is not an own key stops the walk with undefined for
the remaining path, and an index key selects the corresponding element. -/
theorem C8_array_segments (l : List JSON) (k : String) (ks : List String) :
    (hasKey (.arr l) k = true →
      walkKeys (.arr l) (k :: ks) = walkKeys (getKey (.arr l) k) ks) ∧
    (hasKey (.arr l) k = false → walkKeys (.arr l) (k :: ks) = JSON.undefined) ∧
    (∀ i : Nat, arrIndex? l.length k = some i → k ≠ "length" →
      getKey (.arr l) k = (l.get? i).getD JSON.undefined ∧ i < l.length) := by
  refine ⟨fun h => ?_, fun h => ?_, fun i hi hk => ?_⟩
  · simp [walkKeys, isObjectLike, h]
  · simp [walkKeys, isObjectLike, h]
  · have hmem : i ∈ List.range l.length := List.mem_of_find?_eq_some hi
    have hlt : i < l.length := List.mem_range.mp hmem
    have hkb : (k == "length") = false := by simpa using hk
    constructor
    · simp [getKey, hkb, hi]
    · exact hlt

/-- C8 witness: index key "1" on the two-element array selects the second
element. -/
theorem C8_witness :
    walkKeys (.arr [.num 10, .num 20]) ["1"] =
      walkKeys (getKey (.arr [.num 10, .num 20]) "1") [] ∧
    getKey (.arr [.num 10, .num 20]) "1" =
      (([JSON.num 10, JSON.num 20].get? 1)).getD JSON.undefined :=
  ⟨(C8_array_segments [.num 10, .num 20] "1" []).1 rfl,
    ((C8_array_segments [.num 10, .num 20] "1" []).2.2 1 rfl (by decide)).1⟩

/-- C9: updateConnection replaces only the fields named in the patch —
unnamed fields of the targeted connection keep their previous value, every
patch field takes the patch's value, other connections are untouched, and
a missing id returns the false sentinel with the store unchanged. -/
theorem C9_updateConnection (store : List (String × Obj)) (id : String) (patch : Obj)
    (hnd : (patch.map Prod.fst).Nodup) :
    (store.lookup id = none → updateConnection store id patch = (none, store)) ∧
    (∀ existing : Obj, store.lookup id = some existing →
      (updateConnection store id patch).1 = some (spreadInto existing patch) ∧
      (updateConnection store id patch).2.lookup id = some (spreadInto existing patch) ∧
      (∀ f : String, patch.lookup f = none →
        (spreadInto existing patch).lookup f = existing.lookup f) ∧
      (∀ (f : String) (v : JSON), patch.lookup f = some v →
        (spreadInto existing patch).lookup f = some v) ∧
      (∀ id2 : String, id2 ≠ id →
        (updateConnection store id patch).2.lookup id2 = store.lookup id2)) := by
  constructor
  · intro h
    simp [updateConnection, h]
  · intro existing h
    refine ⟨?_, ?_, ?_, ?_, ?_⟩
    · simp [updateConnection, h]
    · simp [updateConnection, h, lookup_assocSet_self]
    · exact fun f hf => lookup_spread_of_none f patch existing hf
    · exact fun f v hv => lookup_spread_of_some f v patch existing hnd hv
    · intro id2 hne
      simp [updateConnection, h, lookup_assocSet_ne store id id2 _ hne]

/-- C9 witness: patching field k of connection c1 leaves its name field and
connection c2 untouched. -/
theorem C9_witness :
    (updateConnection
        [("c1", [("name", JSON.str "n"), ("k", JSON.num 1)]), ("c2", [("k", JSON.num 7)])]
        "c1" [("k", JSON.num 2)]).2.lookup "c2" =
      List.lookup "c2"
        [("c1", [("name", JSON.str "n"), ("k", JSON.num 1)]), ("c2", [("k", JSON.num 7)])] ∧
    (spreadInto [("name", JSON.str "n"), ("k", JSON.num 1)] [("k", JSON.num 2)]).lookup "name" =
      List.lookup "name" [("name", JSON.str "n"), ("k", JSON.num 1)] ∧
    (spreadInto [("name", JSON.str "n"), ("k", JSON.num 1)] [("k", JSON.num 2)]).lookup "k" =
      some (JSON.num 2) :=
  ⟨((C9_updateConnection
      [("c1", [("name", JSON.str "n"), ("k", JSON.num 1)]), ("c2", [("k", JSON.num 7)])]
      "c1" [("k", JSON.num 2)] (by simp)).2
        [("name", JSON.str "n"), ("k", JSON.num 1)] rfl).2.2.2.2 "c2" (by decide),
    ((C9_updateConnection
      [("c1", [("name", JSON.str "n"), ("k", JSON.num 1)]), ("c2", [("k", JSON.num 7)])]
      "c1" [("k", JSON.num 2)] (by simp)).2
        [("name", JSON.str "n"), ("k", JSON.num 1)] rfl).2.2.1 "name" rfl,
    ((C9_updateConnection
      [("c1", [("name", JSON.str "n"), ("k", JSON.num 1)]), ("c2", [("k", JSON.num 7)])]
      "c1" [("k", JSON.num 2)] (by simp)).2
        [("name", JSON.str "n"), ("k", JSON.num 1)] rfl).2.2.2.1 "k" (JSON.num 2) rfl⟩

/-- C10: after logEvent the log store holds at most 500 entries, the entry
just appended — extended with the timestamp — is at the front, the fresh
timestamp is present whenever the entry carries none of its own and the
entry's own fields pass through, and the 499 most recent previously stored
entries are preserved in order. -/
theorem C10_logEvent (logs : List Obj) (ts : String) (entry : Obj)
    (hnd : (entry.map Prod.fst).Nodup) :
    (logEvent logs ts entry).length ≤ 500 ∧
    (logEvent logs ts entry).head? =
      some (spreadInto [("timestamp", JSON.str ts)] entry) ∧
    (entry.lookup "timestamp" = none →
      (spreadInto [("timestamp", JSON.str ts)] entry).lookup "timestamp" =
        some (JSON.str ts)) ∧
    (∀ (f : String) (v : JSON), entry.lookup f = some v →
      (spreadInto [("timestamp", JSON.str ts)] entry).lookup f = some v) ∧
    (∀ i : Nat, i < 499 → (logEvent logs ts entry).get? (i + 1) = logs.get? i) := by
  refine ⟨?_, ?_, fun h => ?_, fun f v hv => ?_, fun i hi => ?_⟩
  · by_cases h : 500 < logs.length + 1
    · simp [logEvent, h, List.length_take]
    · simp [logEvent, h]
      omega
  · by_cases h : 500 < logs.length + 1
    · simp [logEvent, h, List.take_succ_cons]
    · simp [logEvent, h]
  · rw [lookup_spread_of_none "timestamp" entry _ h]
    simp [List.lookup]
  · exact lookup_spread_of_some f v entry _ hnd hv
  · by_cases h : 500 < logs.length + 1
    · simp [logEvent, h, List.take_succ_cons]
      exact List.getElem?_take_of_lt hi
    · simp [logEvent, h]

/-- C10 witness: a one-entry store after logging holds the stamped entry in
front and the old entry at position one. -/
theorem C10_witness :
    (logEvent [[("e", JSON.num 0)]] "T" [("event", JSON.str "x")]).length ≤ 500 ∧
    (logEvent [[("e", JSON.num 0)]] "T" [("event", JSON.str "x")]).get? 1 =
      List.get? [[("e", JSON.num 0)]] 0 ∧
    (spreadInto [("timestamp", JSON.str "T")] [("event", JSON.str "x")]).lookup "timestamp" =
      some (JSON.str "T") :=
  ⟨(C10_logEvent [[("e", JSON.num 0)]] "T" [("event", JSON.str "x")] (by simp)).1,
    (C10_logEvent [[("e", JSON.num 0)]] "T" [("event", JSON.str "x")] (by simp)).2.2.2.2
      0 (by decide),
    (C10_logEvent [[("e", JSON.num 0)]] "T" [("event", JSON.str "x")] (by simp)).2.2.1 rfl⟩

-- Whether the batch execute handler answered 200 with results.
def isOkResp : ApiResp → Bool
  | .ok _ => true
  | .err _ => false

-- A destination failure of the first record whose post fails escapes the
-- record loop, with every earlier record posted successfully.
theorem execBatch_error_of_first_failure (mappings : Mapping)
    (post : JSON → Except String HttpResp) (e : String) (r : JSON) (rest : List JSON) :
    ∀ pre : List JSON, (∀ x ∈ pre, (post (transform x mappings)).isOk = true) →
      post (transform r mappings) = .error e →
      execBatch mappings post (pre ++ r :: rest) = .error e
  | [], _, hr => by simp [execBatch, hr]
  | x :: xs, hpre, hr => by
      rcases hpost : post (transform x mappings) with e' | out
      · have hx := hpre x (by simp)
        rw [hpost] at hx
        simp [Except.isOk, Except.toBool] at hx
      · have ih := execBatch_error_of_first_failure mappings post e r rest xs
          (fun y hy => hpre y (by simp [hy])) hr
        simp [execBatch, hpost, ih]

/-- C1 counterexample: with a destination that rejects every post, the
batch call over two records does not capture the failure per record and
continue — the whole call fails with the first record's error (the handler
answers 500 and returns no per-record results). -/
theorem C1_counterexample :
    executeHandler .absent (fun _ => .error "HTTP 500 Internal Server Error")
        [.num 0, .num 1] =
      .err "HTTP 500 Internal Server Error" ∧
    isOkResp (executeHandler .absent (fun _ => .error "HTTP 500 Internal Server Error")
        [.num 0, .num 1]) = false ∧
    execBatch .absent (fun _ => .error "HTTP 500 Internal Server Error")
        [.num 0, .num 1] =
      .error "HTTP 500 Internal Server Error" :=
  ⟨rfl, rfl, rfl⟩

/-- C1 (amended): a source-fetch or destination-post failure for one record
aborts the whole batch call: with every earlier record posting
successfully, the first failing record's error escapes the record loop and
the handler catches it and answers 500 with that error; the remaining
records are not processed and no per-record results are returned. -/
theorem C1_failure_aborts_batch (mappings : Mapping)
    (post : JSON → Except String HttpResp) (pre : List JSON) (r : JSON)
    (rest : List JSON) (e : String)
    (hpre : ∀ x ∈ pre, (post (transform x mappings)).isOk = true)
    (hr : post (transform r mappings) = .error e) :
    execBatch mappings post (pre ++ r :: rest) = .error e ∧
    executeHandler mappings post (pre ++ r :: rest) = .err e := by
  have hb := execBatch_error_of_first_failure mappings post e r rest pre hpre hr
  exact ⟨hb, by simp [executeHandler, hb]⟩

/-- C1 witness: the first record posts fine, the second one's failure
aborts the batch. -/
theorem C1_witness :
    executeHandler .absent
        (fun j => match j with
          | .num 0 => .ok ⟨200, .null⟩
          | _ => .error "dest down")
        ([.num 0] ++ .num 1 :: []) =
      .err "dest down" :=
  (C1_failure_aborts_batch .absent
      (fun j => match j with
        | .num 0 => .ok ⟨200, .null⟩
        | _ => .error "dest down")
      [.num 0] (.num 1) [] "dest down"
      (fun x hx => by cases List.mem_singleton.mp hx; rfl) rfl).2

/-- C2 counterexample: in the Sheets-backed execute route a destination
failure (the HTTP client raises on a 500 response) leaves every stat
untouched — executionCount is not incremented and errorCount is not
incremented, against the claim that every attempt increments
executionCount and every failure increments errorCount. -/
theorem C2_counterexample :
    (executeSheets ⟨3, 2, 1, none⟩ .absent (.ok ⟨200, .null⟩)
        (fun _ => .error "HTTP 500 Internal Server Error")).1 =
      (⟨3, 2, 1, none⟩ : Stats2) ∧
    ¬ ((executeSheets ⟨3, 2, 1, none⟩ .absent (.ok ⟨200, .null⟩)
        (fun _ => .error "HTTP 500 Internal Server Error")).1.executionCount = 3 + 1) ∧
    ¬ ((executeSheets ⟨3, 2, 1, none⟩ .absent (.ok ⟨200, .null⟩)
        (fun _ => .error "HTTP 500 Internal Server Error")).1.errorCount = 1 + 1) :=
  ⟨rfl, by decide, by decide⟩

-- N executions of the SQL route against an ok source and a destination
-- that always resolves with a non-ok (HTTP 500) response add N to
-- error_count, leave success_count unchanged and add N to execution_count.
theorem executeSqlN_always_500 (rules : List Rule004) (now : String)
    (srcRes : FetchRes) (dstFetch : JSON → Except String FetchRes)
    (hsrc : srcRes.ok = true)
    (hdst : ∀ d : JSON, ∃ r : FetchRes, dstFetch d = .ok r ∧ r.ok = false) :
    ∀ (N : Nat) (st : Stats4),
      (executeSqlN rules now (.ok srcRes) dstFetch st N).error_count =
        st.error_count + N ∧
      (executeSqlN rules now (.ok srcRes) dstFetch st N).success_count =
        st.success_count ∧
      (executeSqlN rules now (.ok srcRes) dstFetch st N).execution_count =
        st.execution_count + N
  | 0, st => by simp [executeSqlN]
  | N + 1, st => by
      obtain ⟨r, hr, hok⟩ := hdst (applyRules004 srcRes.body rules)
      have hstep : (executeSql st rules now (.ok srcRes) dstFetch).1 =
          updateStats4 st false now := by
        simp [executeSql, hsrc, hr, hok]
      have ih := executeSqlN_always_500 rules now srcRes dstFetch hsrc hdst N
        (updateStats4 st false now)
      simp only [executeSqlN, hstep]
      refine ⟨?_, ?_, ?_⟩
      · rw [ih.1]
        simp only [updateStats4]
        simp
        omega
      · rw [ih.2.1]
        simp [updateStats4]
      · rw [ih.2.2]
        simp only [updateStats4]
        simp
        omega

/-- C2 (amended): in the SQL-backed execute route, every call whose source
fetch resolves ok and whose destination fetch resolves updates the stats
exactly per outcome — execution_count always increments, success_count
increments exactly when the destination answered ok, error_count exactly
otherwise, and last_executed is set — so N executions against an
always-500 destination add exactly N to error_count and leave
success_count unchanged; in the Sheets-backed route the stats are touched
only on full success (executionCount and successCount increment, nothing
else), and every failure leaves them unchanged. -/
theorem C2_stats_per_outcome (st : Stats4) (rules : List Rule004) (now : String)
    (srcRes : FetchRes) (dstFetch : JSON → Except String FetchRes)
    (hsrc : srcRes.ok = true) :
    (∀ destRes : FetchRes,
      dstFetch (applyRules004 srcRes.body rules) = .ok destRes →
      (executeSql st rules now (.ok srcRes) dstFetch).1 =
        { execution_count := st.execution_count + 1,
          success_count := st.success_count + (if destRes.ok then 1 else 0),
          error_count := st.error_count + (if destRes.ok then 0 else 1),
          last_executed := some now }) ∧
    ((∀ d : JSON, ∃ r : FetchRes, dstFetch d = .ok r ∧ r.ok = false) →
      ∀ N : Nat,
        (executeSqlN rules now (.ok srcRes) dstFetch st N).error_count =
          st.error_count + N ∧
        (executeSqlN rules now (.ok srcRes) dstFetch st N).success_count =
          st.success_count ∧
        (executeSqlN rules now (.ok srcRes) dstFetch st N).execution_count =
          st.execution_count + N) ∧
    (∀ (stS : Stats2) (mapping : Mapping) (srcR : HttpResp) (dstR : HttpResp)
        (dstF : JSON → Except String HttpResp),
      dstF (transform (respToJson srcR) mapping) = .ok dstR →
      (executeSheets stS mapping (.ok srcR) dstF).1 =
        { stS with
            executionCount := stS.executionCount + 1,
            successCount := stS.successCount + 1 }) ∧
    (∀ (stS : Stats2) (mapping : Mapping) (srcR : HttpResp) (e : String)
        (dstF : JSON → Except String HttpResp),
      dstF (transform (respToJson srcR) mapping) = .error e →
      (executeSheets stS mapping (.ok srcR) dstF).1 = stS) := by
  refine ⟨fun destRes hd => ?_, fun hdst N => ?_, fun stS mapping srcR dstR dstF hd => ?_,
    fun stS mapping srcR e dstF hd => ?_⟩
  · simp [executeSql, hsrc, hd, updateStats4]
  · exact executeSqlN_always_500 rules now srcRes dstFetch hsrc hdst N st
  · simp [executeSheets, hd]
  · simp [executeSheets, hd]

/-- C2 witness: two executions against a destination resolving 500 add two
to error_count and none to success_count. -/
theorem C2_witness :
    (executeSqlN [] "t0" (.ok ⟨true, 200, .null⟩) (fun _ => .ok ⟨false, 500, .null⟩)
        ⟨0, 0, 0, none⟩ 2).error_count = 0 + (2 : Nat) ∧
    (executeSqlN [] "t0" (.ok ⟨true, 200, .null⟩) (fun _ => .ok ⟨false, 500, .null⟩)
        ⟨0, 0, 0, none⟩ 2).success_count = 0 :=
  ⟨((C2_stats_per_outcome ⟨0, 0, 0, none⟩ [] "t0" ⟨true, 200, .null⟩
      (fun _ => .ok ⟨false, 500, .null⟩) rfl).2.1
        (fun _ => ⟨⟨false, 500, .null⟩, rfl, rfl⟩) 2).1,
    ((C2_stats_per_outcome ⟨0, 0, 0, none⟩ [] "t0" ⟨true, 200, .null⟩
      (fun _ => .ok ⟨false, 500, .null⟩) rfl).2.1
        (fun _ => ⟨⟨false, 500, .null⟩, rfl, rfl⟩) 2).2.1⟩

end ConnHub
